import Mathlib

/-!
Shallow embedding of the CHIP-8 virtual machine core from
`src/chip8_core/src/lib.rs`, together with theorems checking the
natural-language specification against it.

Modelling conventions:
* `u8` / `u16` machine integers become `Nat`, with an explicit `% 256`
  or `% 65536` exactly where the Rust code performs a wrapping
  operation (`wrapping_add`, `<<=`, `overflowing_add`, ...).
* Fixed-size Rust arrays (`ram`, `screen`, `v_reg`, `stack`, `keys`)
  become total functions from `Nat`; every array access whose index is
  derived from program-controlled data carries the same bounds check
  that Rust enforces at runtime (a panic in Rust is modelled as
  `Except.error Err.oob` / `Option.none`).
* The single genuinely random instruction (`C,X,N,N`, which calls
  `rand::random()`) receives the random byte as the explicit `rng`
  argument of `decode_and_execute` / `tick`.
-/

namespace Chip8

def SCREEN_WIDTH : Nat := 64
def SCREEN_HEIGHT : Nat := 32
def RAM_SIZE : Nat := 4096
def NUM_REGS : Nat := 16
def STACK_SIZE : Nat := 16
def NUM_KEYS : Nat := 16
def START_ADDR : Nat := 0x200
def FONTSET_SIZE : Nat := 80

/-- The fixed 80-byte glyph table (`FONTSET` in the source). -/
def FONTSET : List Nat := [
  0xF0, 0x90, 0x90, 0x90, 0xF0,
  0x20, 0x60, 0x20, 0x20, 0x70,
  0xF0, 0x10, 0xF0, 0x80, 0xF0,
  0xF0, 0x10, 0xF0, 0x10, 0xF0,
  0x90, 0x90, 0xF0, 0x10, 0x10,
  0xF0, 0x80, 0xF0, 0x10, 0xF0,
  0xF0, 0x80, 0xF0, 0x90, 0xF0,
  0xF0, 0x10, 0x20, 0x40, 0x40,
  0xF0, 0x90, 0xF0, 0x90, 0xF0,
  0xF0, 0x90, 0xF0, 0x10, 0xF0,
  0xF0, 0x90, 0xF0, 0x90, 0x90,
  0xE0, 0x90, 0xE0, 0x90, 0xE0,
  0xF0, 0x80, 0x80, 0x80, 0xF0,
  0xE0, 0x90, 0x90, 0x90, 0xE0,
  0xF0, 0x80, 0xF0, 0x80, 0xF0,
  0xF0, 0x80, 0xF0, 0x80, 0x80]

/-- Pointwise update of a `Nat`-valued array modelled as a function. -/
def updN (f : Nat → Nat) (i v : Nat) : Nat → Nat := fun j => if j = i then v else f j

/-- Pointwise update of a `Bool`-valued array modelled as a function. -/
def updB (f : Nat → Bool) (i : Nat) (v : Bool) : Nat → Bool := fun j => if j = i then v else f j

/-- The `Emulator` struct of the source, field for field. -/
@[ext]
structure Emulator where
  pc : Nat
  ram : Nat → Nat
  screen : Nat → Bool
  v_reg : Nat → Nat
  i_reg : Nat
  sp : Nat
  stack : Nat → Nat
  keys : Nat → Bool
  delay_t : Nat
  sound_t : Nat

/-- Failure of an operation: a Rust panic (array index out of bounds or
arithmetic underflow/overflow in debug mode) or the `unimplemented!`
macro invocation carrying the raw opcode word. -/
inductive Err where
  | oob
  | unimplemented (op : Nat)
deriving DecidableEq

/-- `ram[..FONTSET_SIZE].copy_from_slice(&FONTSET)`. -/
def writeFontset (ram : Nat → Nat) : Nat → Nat :=
  fun a => if a < FONTSET_SIZE then FONTSET.getD a 0 else ram a

/-- `Emulator::new`. -/
def Emulator.new : Emulator where
  pc := START_ADDR
  ram := writeFontset fun _ => 0
  screen := fun _ => false
  v_reg := fun _ => 0
  i_reg := 0
  sp := 0
  stack := fun _ => 0
  keys := fun _ => false
  delay_t := 0
  sound_t := 0

/-- `Emulator::reset`: overwrites every field with the same values
`Emulator::new` uses, then rewrites the fontset. -/
def Emulator.reset (_e : Emulator) : Emulator where
  pc := START_ADDR
  ram := writeFontset fun _ => 0
  screen := fun _ => false
  v_reg := fun _ => 0
  i_reg := 0
  sp := 0
  stack := fun _ => 0
  keys := fun _ => false
  delay_t := 0
  sound_t := 0

/-- `Emulator::keypress`: `self.keys[idx] = pressed`. The unchecked
Rust indexing panics for `idx ≥ 16`, modelled as `none`. -/
def Emulator.keypress (e : Emulator) (idx : Nat) (pressed : Bool) : Option Emulator :=
  if idx < NUM_KEYS then some { e with keys := updB e.keys idx pressed }
  else none

/-- `Emulator::load`: copies `data` into ram starting at `START_ADDR`;
the slice operation panics when the payload overruns ram. -/
def Emulator.load (e : Emulator) (data : List Nat) : Option Emulator :=
  if START_ADDR + data.length ≤ RAM_SIZE then
    some { e with ram := fun a =>
      (if START_ADDR ≤ a ∧ a < START_ADDR + data.length then data.getD (a - START_ADDR) 0
       else e.ram a) }
  else none

/-- `Emulator::tick_timers`. -/
def Emulator.tick_timers (e : Emulator) : Emulator :=
  let e1 := if 0 < e.delay_t then { e with delay_t := e.delay_t - 1 } else e
  if 0 < e1.sound_t then { e1 with sound_t := e1.sound_t - 1 } else e1

/-- `Emulator::push`: `stack[sp] = val; sp += 1` with the bounds check
Rust performs on the indexing. -/
def Emulator.push (e : Emulator) (val : Nat) : Except Err Emulator :=
  if e.sp < STACK_SIZE then .ok { e with stack := updN e.stack e.sp val, sp := e.sp + 1 }
  else .error .oob

/-- `Emulator::pop`: `sp -= 1; return stack[sp]` with Rust's underflow
and bounds checks. -/
def Emulator.pop (e : Emulator) : Except Err (Nat × Emulator) :=
  if e.sp = 0 then .error .oob
  else if e.sp - 1 < STACK_SIZE then .ok (e.stack (e.sp - 1), { e with sp := e.sp - 1 })
  else .error .oob

/-- `Emulator::fetch`: big-endian combination of the two bytes at `pc`,
then `pc += 2`.  Rust's indexing panics when `pc + 1 ≥ 4096`. -/
def Emulator.fetch (e : Emulator) : Except Err (Nat × Emulator) :=
  if e.pc + 1 < RAM_SIZE then
    let upper_byte := e.ram e.pc
    let lower_byte := e.ram (e.pc + 1)
    .ok ((upper_byte <<< 8) ||| lower_byte, { e with pc := e.pc + 2 })
  else .error .oob

/-- The sprite-bit test of the draw loop:
`(pixels & (0b1000_0000 >> x_line)) != 0`. -/
def spriteBit (pixels xLine : Nat) : Bool := pixels &&& (0x80 >>> xLine) != 0

/-- Body of the inner (column) draw loop: if the sprite bit is set,
record a collision with the current pixel and XOR-toggle it. -/
def drawPixel (xCoord yCoord yLine pixels : Nat) (sf : (Nat → Bool) × Bool) (xLine : Nat) :
    (Nat → Bool) × Bool :=
  if spriteBit pixels xLine then
    let x := (xCoord + xLine) % SCREEN_WIDTH
    let y := (yCoord + yLine) % SCREEN_HEIGHT
    let idx := x + SCREEN_WIDTH * y
    (updB sf.1 idx (!sf.1 idx), sf.2 || sf.1 idx)
  else sf

/-- The outer (row) draw loop: one ram read per row (with Rust's bounds
check on `ram[(i_reg + y_line) as usize]`), then the 8-column loop. -/
def drawRows (e : Emulator) (xCoord yCoord : Nat) :
    List Nat → ((Nat → Bool) × Bool) → Except Err ((Nat → Bool) × Bool)
  | [], sf => .ok sf
  | yLine :: rest, sf =>
    let addr := e.i_reg + yLine
    if addr < RAM_SIZE then
      let pixels := e.ram addr
      drawRows e xCoord yCoord rest ((List.range 8).foldl (drawPixel xCoord yCoord yLine pixels) sf)
    else .error .oob

/-- The screen index the draw loop computes for sprite row `row` and
column `col` of a sprite whose top-left corner is `(xC, yC)`:
coordinates wrap modulo the screen size. -/
def pos (xC yC row col : Nat) : Nat :=
  (xC + col) % SCREEN_WIDTH + SCREEN_WIDTH * ((yC + row) % SCREEN_HEIGHT)

/-- Toggling a list of screen indices in order, accumulating the
collision flag exactly as the draw loop does: before each toggle the
current pixel value is OR-ed into the flag. -/
def toggleFold : List Nat → ((Nat → Bool) × Bool) → ((Nat → Bool) × Bool)
  | [], sf => sf
  | i :: rest, sf => toggleFold rest (updB sf.1 i (!sf.1 i), sf.2 || sf.1 i)

/-- The screen indices one sprite row toggles, in column order. -/
def rowIdxs (e : Emulator) (xC yC yLine : Nat) : List Nat :=
  ((List.range 8).filter (fun c => spriteBit (e.ram (e.i_reg + yLine)) c)).map (pos xC yC yLine)

/-- The screen indices the first `n` sprite rows toggle, in draw order. -/
def allIdxs (e : Emulator) (xC yC : Nat) : Nat → List Nat
  | 0 => []
  | n + 1 => allIdxs e xC yC n ++ rowIdxs e xC yC n

/-- `j` is a pixel the `n`-row sprite draw covers: some row below `n`
and column below 8 has its sprite bit set and targets `j`. -/
def coveredB (e : Emulator) (xC yC n j : Nat) : Bool :=
  (List.range n).any fun row => (List.range 8).any fun col =>
    spriteBit (e.ram (e.i_reg + row)) col && decide (j = pos xC yC row col)

/-- Some pixel the `n`-row sprite draw covers is currently on: the draw
will turn it off and report a collision. -/
def collideB (e : Emulator) (xC yC n : Nat) : Bool :=
  (List.range n).any fun row => (List.range 8).any fun col =>
    spriteBit (e.ram (e.i_reg + row)) col && e.screen (pos xC yC row col)

/-- The `match` of `decode_and_execute` on the nibble 4-tuple (with
wildcards, first matching arm wins), rendered as the equivalent ordered
chain of conditionals, in source order, over the already-extracted
nibbles.  Note the `8,X,Y,7` arm: the source really does bind `y` to
`hex_2`. -/
def Emulator.dispatch (e : Emulator) (op rng hex_1 hex_2 hex_3 hex_4 : Nat) : Except Err Emulator :=
  if hex_1 = 0 ∧ hex_2 = 0 ∧ hex_3 = 0 ∧ hex_4 = 0 then
    .ok e
  else if hex_1 = 0 ∧ hex_2 = 0 ∧ hex_3 = 0xE ∧ hex_4 = 0 then
    .ok { e with screen := fun _ => false }
  else if hex_1 = 0 ∧ hex_2 = 0 ∧ hex_3 = 0xE ∧ hex_4 = 0xE then
    match e.pop with
    | .ok (ret_addr, e1) => .ok { e1 with pc := ret_addr }
    | .error er => .error er
  else if hex_1 = 1 then
    .ok { e with pc := op &&& 0xFFF }
  else if hex_1 = 2 then
    match e.push e.pc with
    | .ok e1 => .ok { e1 with pc := op &&& 0xFFF }
    | .error er => .error er
  else if hex_1 = 3 then
    let nn := op &&& 0xFF
    .ok (if e.v_reg hex_2 = nn then { e with pc := e.pc + 2 } else e)
  else if hex_1 = 4 then
    let nn := op &&& 0xFF
    .ok (if e.v_reg hex_2 ≠ nn then { e with pc := e.pc + 2 } else e)
  else if hex_1 = 5 ∧ hex_4 = 0 then
    .ok (if e.v_reg hex_2 = e.v_reg hex_3 then { e with pc := e.pc + 2 } else e)
  else if hex_1 = 6 then
    .ok { e with v_reg := updN e.v_reg hex_2 (op &&& 0xFF) }
  else if hex_1 = 7 then
    .ok { e with v_reg := updN e.v_reg hex_2 ((e.v_reg hex_2 + (op &&& 0xFF)) % 256) }
  else if hex_1 = 8 ∧ hex_4 = 0 then
    .ok { e with v_reg := updN e.v_reg hex_2 (e.v_reg hex_3) }
  else if hex_1 = 8 ∧ hex_4 = 1 then
    .ok { e with v_reg := updN e.v_reg hex_2 (e.v_reg hex_2 ||| e.v_reg hex_3) }
  else if hex_1 = 8 ∧ hex_4 = 2 then
    .ok { e with v_reg := updN e.v_reg hex_2 (e.v_reg hex_2 &&& e.v_reg hex_3) }
  else if hex_1 = 8 ∧ hex_4 = 3 then
    .ok { e with v_reg := updN e.v_reg hex_2 (e.v_reg hex_2 ^^^ e.v_reg hex_3) }
  else if hex_1 = 8 ∧ hex_4 = 4 then
    let new_vx := (e.v_reg hex_2 + e.v_reg hex_3) % 256
    let new_vf := if 256 ≤ e.v_reg hex_2 + e.v_reg hex_3 then 1 else 0
    .ok { e with v_reg := updN (updN e.v_reg hex_2 new_vx) 0xF new_vf }
  else if hex_1 = 8 ∧ hex_4 = 5 then
    let new_vx := if e.v_reg hex_2 < e.v_reg hex_3 then e.v_reg hex_2 + 256 - e.v_reg hex_3
      else e.v_reg hex_2 - e.v_reg hex_3
    let new_vf := if e.v_reg hex_2 < e.v_reg hex_3 then 0 else 1
    .ok { e with v_reg := updN (updN e.v_reg hex_2 new_vx) 0xF new_vf }
  else if hex_1 = 8 ∧ hex_4 = 6 then
    let lsb := e.v_reg hex_2 &&& 1
    .ok { e with v_reg := updN (updN e.v_reg hex_2 (e.v_reg hex_2 >>> 1)) 0xF lsb }
  else if hex_1 = 8 ∧ hex_4 = 7 then
    let y := hex_2
    let new_vx := if e.v_reg y < e.v_reg hex_2 then e.v_reg y + 256 - e.v_reg hex_2
      else e.v_reg y - e.v_reg hex_2
    let new_vf := if e.v_reg y < e.v_reg hex_2 then 0 else 1
    .ok { e with v_reg := updN (updN e.v_reg hex_2 new_vx) 0xF new_vf }
  else if hex_1 = 8 ∧ hex_4 = 0xE then
    let msb := e.v_reg hex_2 >>> 7
    .ok { e with v_reg := updN (updN e.v_reg hex_2 ((e.v_reg hex_2 <<< 1) % 256)) 0xF msb }
  else if hex_1 = 9 ∧ hex_4 = 0 then
    .ok (if e.v_reg hex_2 ≠ e.v_reg hex_3 then { e with pc := e.pc + 2 } else e)
  else if hex_1 = 0xA then
    .ok { e with i_reg := op &&& 0xFFF }
  else if hex_1 = 0xB then
    .ok { e with pc := e.v_reg 0 + (op &&& 0xFFF) }
  else if hex_1 = 0xC then
    .ok { e with v_reg := updN e.v_reg hex_2 ((rng % 256) &&& (op &&& 0xFF)) }
  else if hex_1 = 0xD then
    let x_coord := e.v_reg hex_2
    let y_coord := e.v_reg hex_3
    let num_rows := hex_4
    match drawRows e x_coord y_coord (List.range num_rows) (e.screen, false) with
    | .ok sf => .ok { e with screen := sf.1, v_reg := updN e.v_reg 0xF (if sf.2 then 1 else 0) }
    | .error er => .error er
  else if hex_1 = 0xE ∧ hex_3 = 9 ∧ hex_4 = 0xE then
    let vx := e.v_reg hex_2
    if vx < NUM_KEYS then
      .ok (if e.keys vx then { e with pc := e.pc + 2 } else e)
    else .error .oob
  else if hex_1 = 0xE ∧ hex_3 = 0xA ∧ hex_4 = 1 then
    let vx := e.v_reg hex_2
    if vx < NUM_KEYS then
      .ok (if e.keys vx then e else { e with pc := e.pc + 2 })
    else .error .oob
  else if hex_1 = 0xF ∧ hex_3 = 0 ∧ hex_4 = 7 then
    .ok { e with v_reg := updN e.v_reg hex_2 e.delay_t }
  else if hex_1 = 0xF ∧ hex_3 = 0 ∧ hex_4 = 0xA then
    match (List.range NUM_KEYS).find? e.keys with
    | some i => .ok { e with v_reg := updN e.v_reg hex_2 i }
    | none =>
      if e.pc < 2 then .error .oob
      else .ok { e with pc := e.pc - 2 }
  else if hex_1 = 0xF ∧ hex_3 = 1 ∧ hex_4 = 5 then
    .ok { e with delay_t := e.v_reg hex_2 }
  else if hex_1 = 0xF ∧ hex_3 = 1 ∧ hex_4 = 8 then
    .ok { e with sound_t := e.v_reg hex_2 }
  else if hex_1 = 0xF ∧ hex_3 = 1 ∧ hex_4 = 0xE then
    .ok { e with i_reg := (e.i_reg + e.v_reg hex_2) % 65536 }
  else if hex_1 = 0xF ∧ hex_3 = 2 ∧ hex_4 = 9 then
    .ok { e with i_reg := e.v_reg hex_2 * 5 }
  else if hex_1 = 0xF ∧ hex_3 = 3 ∧ hex_4 = 3 then
    -- The source computes with `f32`: `vx / 100.0 .floor`, `vx / 10.0 .floor`
    -- and `vx % 10.0`.  For the byte-sized values a `u8` register holds these
    -- float operations are exact, so they are `vx / 100`, `vx / 10` (with no
    -- `% 10` -- the source omits it) and `vx % 10` on `Nat`.
    let vx := e.v_reg hex_2
    let hundreds := vx / 100
    let tens := vx / 10
    let ones := vx % 10
    if e.i_reg + 2 < RAM_SIZE then
      .ok { e with ram := (updN (updN (updN e.ram e.i_reg hundreds) (e.i_reg + 1) tens)
        (e.i_reg + 2) ones) }
    else .error .oob
  else if hex_1 = 0xF ∧ hex_3 = 5 ∧ hex_4 = 5 then
    if e.i_reg + hex_2 < RAM_SIZE then
      .ok { e with ram :=
        (List.range (hex_2 + 1)).foldl (fun r idx => updN r (e.i_reg + idx) (e.v_reg idx)) e.ram }
    else .error .oob
  else if hex_1 = 0xF ∧ hex_3 = 6 ∧ hex_4 = 5 then
    if e.i_reg + hex_2 < RAM_SIZE then
      .ok { e with v_reg :=
        (List.range (hex_2 + 1)).foldl (fun v idx => updN v idx (e.ram (e.i_reg + idx))) e.v_reg }
    else .error .oob
  else .error (.unimplemented op)

/-- `Emulator::decode_and_execute`: extract the four nibbles exactly as
the source does, then dispatch on them. -/
def Emulator.decode_and_execute (e : Emulator) (op rng : Nat) : Except Err Emulator :=
  let hex_1 := (op &&& 0xF000) >>> 12
  let hex_2 := (op &&& 0x0F00) >>> 8
  let hex_3 := (op &&& 0x00F0) >>> 4
  let hex_4 := op &&& 0x000F
  e.dispatch op rng hex_1 hex_2 hex_3 hex_4

/-- The nibble patterns the `decode_and_execute` match recognises, as a
Boolean predicate with the same condition chain as `dispatch`. -/
def definedNibbles (hex_1 hex_2 hex_3 hex_4 : Nat) : Bool :=
  if hex_1 = 0 ∧ hex_2 = 0 ∧ hex_3 = 0 ∧ hex_4 = 0 then true
  else if hex_1 = 0 ∧ hex_2 = 0 ∧ hex_3 = 0xE ∧ hex_4 = 0 then true
  else if hex_1 = 0 ∧ hex_2 = 0 ∧ hex_3 = 0xE ∧ hex_4 = 0xE then true
  else if hex_1 = 1 then true
  else if hex_1 = 2 then true
  else if hex_1 = 3 then true
  else if hex_1 = 4 then true
  else if hex_1 = 5 ∧ hex_4 = 0 then true
  else if hex_1 = 6 then true
  else if hex_1 = 7 then true
  else if hex_1 = 8 ∧ hex_4 = 0 then true
  else if hex_1 = 8 ∧ hex_4 = 1 then true
  else if hex_1 = 8 ∧ hex_4 = 2 then true
  else if hex_1 = 8 ∧ hex_4 = 3 then true
  else if hex_1 = 8 ∧ hex_4 = 4 then true
  else if hex_1 = 8 ∧ hex_4 = 5 then true
  else if hex_1 = 8 ∧ hex_4 = 6 then true
  else if hex_1 = 8 ∧ hex_4 = 7 then true
  else if hex_1 = 8 ∧ hex_4 = 0xE then true
  else if hex_1 = 9 ∧ hex_4 = 0 then true
  else if hex_1 = 0xA then true
  else if hex_1 = 0xB then true
  else if hex_1 = 0xC then true
  else if hex_1 = 0xD then true
  else if hex_1 = 0xE ∧ hex_3 = 9 ∧ hex_4 = 0xE then true
  else if hex_1 = 0xE ∧ hex_3 = 0xA ∧ hex_4 = 1 then true
  else if hex_1 = 0xF ∧ hex_3 = 0 ∧ hex_4 = 7 then true
  else if hex_1 = 0xF ∧ hex_3 = 0 ∧ hex_4 = 0xA then true
  else if hex_1 = 0xF ∧ hex_3 = 1 ∧ hex_4 = 5 then true
  else if hex_1 = 0xF ∧ hex_3 = 1 ∧ hex_4 = 8 then true
  else if hex_1 = 0xF ∧ hex_3 = 1 ∧ hex_4 = 0xE then true
  else if hex_1 = 0xF ∧ hex_3 = 2 ∧ hex_4 = 9 then true
  else if hex_1 = 0xF ∧ hex_3 = 3 ∧ hex_4 = 3 then true
  else if hex_1 = 0xF ∧ hex_3 = 5 ∧ hex_4 = 5 then true
  else if hex_1 = 0xF ∧ hex_3 = 6 ∧ hex_4 = 5 then true
  else false

/-- `definedNibbles` applied to the nibbles of an instruction word. -/
def definedOpcode (op : Nat) : Bool :=
  definedNibbles ((op &&& 0xF000) >>> 12) ((op &&& 0x0F00) >>> 8) ((op &&& 0x00F0) >>> 4)
    (op &&& 0x000F)

/-- `Emulator::tick`: one fetch / decode / execute cycle. -/
def Emulator.tick (e : Emulator) (rng : Nat) : Except Err Emulator :=
  match e.fetch with
  | .ok (op, e1) => e1.decode_and_execute op rng
  | .error er => .error er

/-- Concrete state for evaluating the BCD slip: `V0 = 157`, `I = 0x300`. -/
def eC1 : Emulator := { Emulator.new with v_reg := updN Emulator.new.v_reg 0 157, i_reg := 0x300 }

/-- Concrete state for evaluating the `8,X,Y,7` slip: `V0 = 7`, `V1 = 5`. -/
def eC2 : Emulator := { Emulator.new with v_reg := updN (updN Emulator.new.v_reg 0 7) 1 5 }

/-- What a successful in-range `keypress` must do to the state: set
exactly the requested keypad flag and change nothing else. -/
def keypressOk (e e2 : Emulator) (idx : Nat) (pressed : Bool) : Prop :=
  e2.keys idx = pressed ∧ (∀ j, j ≠ idx → e2.keys j = e.keys j) ∧ e2.pc = e.pc ∧
  e2.ram = e.ram ∧ e2.screen = e.screen ∧ e2.v_reg = e.v_reg ∧ e2.i_reg = e.i_reg ∧
  e2.sp = e.sp ∧ e2.stack = e.stack ∧ e2.delay_t = e.delay_t ∧ e2.sound_t = e.sound_t

/-- A two-instruction program: `A,0,0,0` (set I := 0) then `F,0,3,3`
(BCD of `V0 = 0` at address 0). -/
def progC5 : List Nat := [0xA0, 0x00, 0xF0, 0x33]

/-- Load `progC5` into a fresh emulator and run two instruction steps. -/
def c5Run : Except Err Emulator :=
  match Emulator.new.load progC5 with
  | some e1 =>
    match e1.tick 0 with
    | .ok e2 => e2.tick 0
    | .error er => .error er
  | none => .error .oob

/-- Concrete states for the `8,X,Y,5` borrow examples: `V0 = 1, V1 = 2`
and `V0 = 2, V1 = 1`. -/
def eC6a : Emulator := { Emulator.new with v_reg := updN (updN Emulator.new.v_reg 0 1) 1 2 }

/-- See `eC6a`. -/
def eC6b : Emulator := { Emulator.new with v_reg := updN (updN Emulator.new.v_reg 0 2) 1 1 }

/-- A state whose next instruction is `F,5,0,A` (wait for key into V5),
with no key pressed. -/
def eK : Emulator := { Emulator.new with ram := updN (updN Emulator.new.ram 0x200 0xF5) 0x201 0x0A }

/-- `eK` with key 3 pressed. -/
def eK2 : Emulator := { eK with keys := updB eK.keys 3 true }

/-- A fresh emulator whose index register was raised to `0x50` (the
first address after the glyph table); its next instruction is `0,0,0,0`
(NOP, since ram at `0x200` is zero). -/
def eW : Emulator := { Emulator.new with i_reg := 0x50 }

/-- The state `eW.tick` produces: only the program counter advanced. -/
def eW2 : Emulator := { eW with pc := 0x202 }

/- ### Bit-arithmetic bridges between the source's mask/shift nibble
extraction and plain division/remainder arithmetic. -/

theorem or_shiftRight (x y s : Nat) : (x ||| y) >>> s = (x >>> s) ||| (y >>> s) := by
  apply Nat.eq_of_testBit_eq
  intro i
  simp

theorem and_255_eq_mod (x : Nat) : x &&& 255 = x % 256 := by
  have h := Nat.and_pow_two_sub_one_eq_mod x 8
  norm_num at h
  exact h

theorem nib_shift (op s : Nat) : (op &&& (15 <<< s)) >>> s = (op >>> s) &&& 15 := by
  apply Nat.eq_of_testBit_eq
  intro i
  simp only [Nat.testBit_shiftRight, Nat.testBit_and, Nat.testBit_shiftLeft]
  have h1 : s ≤ s + i := Nat.le_add_right s i
  have h2 : s + i - s = i := by omega
  simp [h1, h2]

theorem and_15_eq_mod (x : Nat) : x &&& 15 = x % 16 := by
  have h := Nat.and_pow_two_sub_one_eq_mod x 4
  norm_num at h
  exact h

theorem nib1_eq (op : Nat) : (op &&& 0xF000) >>> 12 = op / 4096 % 16 := by
  have h : (0xF000 : Nat) = 15 <<< 12 := by norm_num [Nat.shiftLeft_eq]
  rw [h, nib_shift, and_15_eq_mod, Nat.shiftRight_eq_div_pow]

theorem nib2_eq (op : Nat) : (op &&& 0x0F00) >>> 8 = op / 256 % 16 := by
  have h : (0x0F00 : Nat) = 15 <<< 8 := by norm_num [Nat.shiftLeft_eq]
  rw [h, nib_shift, and_15_eq_mod, Nat.shiftRight_eq_div_pow]

theorem nib3_eq (op : Nat) : (op &&& 0x00F0) >>> 4 = op / 16 % 16 := by
  have h : (0x00F0 : Nat) = 15 <<< 4 := by norm_num [Nat.shiftLeft_eq]
  rw [h, nib_shift, and_15_eq_mod, Nat.shiftRight_eq_div_pow]

theorem nib4_eq (op : Nat) : op &&& 0x000F = op % 16 := and_15_eq_mod op

theorem and_FFF_eq_mod (x : Nat) : x &&& 0xFFF = x % 4096 := by
  have h := Nat.and_pow_two_sub_one_eq_mod x 12
  norm_num at h
  exact h

theorem and_FF_eq_mod (x : Nat) : x &&& 0xFF = x % 256 := and_255_eq_mod x

/-- Big-endian byte concatenation: the `(upper <<< 8) ||| lower` of
`fetch` is `upper * 256 + lower` when `lower` is a byte. -/
theorem shiftLeft_or_eq_add (a b : Nat) (hb : b < 256) : (a <<< 8) ||| b = a * 256 + b := by
  have hand : ((a <<< 8) ||| b) &&& 255 = b := by
    rw [Nat.and_distrib_right]
    have h1 : (a <<< 8) &&& 255 = 0 := by
      rw [Nat.shiftLeft_eq, and_255_eq_mod]
      norm_num [Nat.mul_mod_left]
    have h2 : b &&& 255 = b := by
      rw [and_255_eq_mod]
      exact Nat.mod_eq_of_lt hb
    rw [h1, h2, Nat.zero_or]
  have hdiv : ((a <<< 8) ||| b) >>> 8 = a := by
    rw [or_shiftRight]
    have h1 : (a <<< 8) >>> 8 = a := by
      rw [Nat.shiftLeft_eq, Nat.shiftRight_eq_div_pow]
      exact Nat.mul_div_cancel _ (by norm_num)
    have h2 : b >>> 8 = 0 := by
      rw [Nat.shiftRight_eq_div_pow]
      exact Nat.div_eq_of_lt (by norm_num; omega)
    rw [h1, h2, Nat.or_zero]
  rw [and_255_eq_mod] at hand
  rw [Nat.shiftRight_eq_div_pow] at hdiv
  norm_num at hdiv
  omega

/-- `decode_and_execute` in terms of `dispatch` with the nibbles
expressed as division/remainder arithmetic. -/
theorem decode_eq_dispatch (e : Emulator) (op rng : Nat) :
    e.decode_and_execute op rng =
      e.dispatch op rng (op / 4096 % 16) (op / 256 % 16) (op / 16 % 16) (op % 16) := by
  simp only [Emulator.decode_and_execute, nib1_eq, nib2_eq, nib3_eq, nib4_eq]

theorem find_range_none (p : Nat → Bool) (n : Nat) (h : ∀ i, i < n → p i = false) :
    (List.range n).find? p = none := by
  apply List.find?_eq_none.mpr
  intro x hx
  simp only [List.mem_range] at hx
  simp [h x hx]

theorem find_range'_some (p : Nat → Bool) (n : Nat) : ∀ s k : Nat, s ≤ k → k < s + n →
    p k = true → (∀ j, s ≤ j → j < k → p j = false) → (List.range' s n).find? p = some k := by
  induction n with
  | zero => intro s k h1 h2 _ _; omega
  | succ n ih =>
    intro s k h1 h2 hp hmin
    rw [List.range'_succ]
    rcases Nat.eq_or_lt_of_le h1 with heq | hlt
    · subst heq
      rw [List.find?_cons_of_pos _ hp]
    · have hps : p s = false := hmin s Nat.le.refl hlt
      rw [List.find?_cons_of_neg _ (by simp [hps])]
      exact ih (s + 1) k hlt (by omega) hp (fun j hj hj2 => hmin j (by omega) hj2)

theorem find_range_some (p : Nat → Bool) (n k : Nat) (hk : k < n) (hp : p k = true)
    (hmin : ∀ j, j < k → p j = false) : (List.range n).find? p = some k := by
  rw [List.range_eq_range']
  exact find_range'_some p n 0 k (Nat.zero_le k) (by omega) hp (fun j _ hj => hmin j hj)

/- ### Claim theorems -/

/-- C9: `reset` applied to any state yields exactly the state built by
`new`: program counter `0x200`, ram zero outside the 80-byte glyph
table, and every register, index register, stack slot, stack pointer,
framebuffer pixel, keypad flag and timer zeroed. -/
theorem C9_reset_eq_new (e : Emulator) :
    e.reset = Emulator.new ∧
    Emulator.new.pc = START_ADDR ∧
    (∀ a : Nat, Emulator.new.ram a = if a < FONTSET_SIZE then FONTSET.getD a 0 else 0) ∧
    (∀ k : Nat, Emulator.new.v_reg k = 0) ∧
    Emulator.new.i_reg = 0 ∧
    Emulator.new.sp = 0 ∧
    (∀ k : Nat, Emulator.new.stack k = 0) ∧
    (∀ j : Nat, Emulator.new.screen j = false) ∧
    (∀ k : Nat, Emulator.new.keys k = false) ∧
    Emulator.new.delay_t = 0 ∧
    Emulator.new.sound_t = 0 :=
  ⟨rfl, rfl, fun _ => rfl, fun _ => rfl, rfl, rfl, fun _ => rfl, fun _ => rfl, fun _ => rfl,
    rfl, rfl⟩

/-- C8: one `tick_timers` call decrements each timer by exactly one
when it is nonzero, leaves it unchanged when it is zero (no wraparound),
and modifies no other component of the state. -/
theorem C8_tick_timers (e : Emulator) :
    (e.tick_timers.delay_t = if 0 < e.delay_t then e.delay_t - 1 else e.delay_t) ∧
    (e.tick_timers.sound_t = if 0 < e.sound_t then e.sound_t - 1 else e.sound_t) ∧
    e.tick_timers.pc = e.pc ∧ e.tick_timers.ram = e.ram ∧ e.tick_timers.screen = e.screen ∧
    e.tick_timers.v_reg = e.v_reg ∧ e.tick_timers.i_reg = e.i_reg ∧ e.tick_timers.sp = e.sp ∧
    e.tick_timers.stack = e.stack ∧ e.tick_timers.keys = e.keys := by
  simp only [Emulator.tick_timers]
  split_ifs <;> simp_all

/-- C10: `keypress` with an index below 16 sets exactly that keypad
flag and nothing else; with an index of 16 or more the unchecked array
access aborts (modelled as `none`) instead of ignoring or clamping. -/
theorem C10_keypress (e : Emulator) (idx : Nat) (pressed : Bool) :
    (idx < NUM_KEYS → ∃ e2, e.keypress idx pressed = some e2 ∧ keypressOk e e2 idx pressed) ∧
    (NUM_KEYS ≤ idx → e.keypress idx pressed = none) := by
  constructor
  · intro h
    refine ⟨{ e with keys := updB e.keys idx pressed }, ?_, ?_, fun j hj => ?_,
      rfl, rfl, rfl, rfl, rfl, rfl, rfl, rfl, rfl⟩
    · simp [Emulator.keypress, h]
    · simp [updB]
    · simp [updB, hj]
  · intro h
    simp [Emulator.keypress]
    omega

/-- Witness for C10 at the concrete indices 3 (in range) and 16 (out of
range). -/
theorem C10_keypress_witness :
    ((3 : Nat) < NUM_KEYS ∧
      ∃ e2, Emulator.new.keypress 3 true = some e2 ∧ keypressOk Emulator.new e2 3 true) ∧
    (NUM_KEYS ≤ (16 : Nat) ∧ Emulator.new.keypress 16 true = none) :=
  ⟨⟨by decide, (C10_keypress Emulator.new 3 true).1 (by decide)⟩,
   ⟨by decide, (C10_keypress Emulator.new 16 true).2 (by decide)⟩⟩

/-- C1 (code bug): executing `F,0,3,3` with `V0 = 157` and `I = 0x300`
stores `[1, 15, 7]` -- the middle byte is `157 / 10 = 15`, not the tens
digit `5` the specification requires, because the source omits the
`% 10` in the tens computation. -/
theorem C1_bcd_eval :
    (eC1.decode_and_execute 0xF033 0).map
      (fun e2 => (e2.ram 0x300, e2.ram 0x301, e2.ram 0x302)) = .ok (1, 15, 7) := by
  rfl

/-- C2 (code bug): executing `8,0,1,7` with `V0 = 7`, `V1 = 5` leaves
`V0 = 0` and `VF = 1` -- the source binds `y` to `hex_2`, so it computes
`V0 - V0 = 0` with no borrow, instead of `V1 - V0 = 254` with borrow
flag 0 as the specification requires. -/
theorem C2_sub_rev_eval :
    (eC2.decode_and_execute 0x8017 0).map
      (fun e2 => (e2.v_reg 0, e2.v_reg 1, e2.v_reg 15)) = .ok (0, 5, 1) := by
  rfl

/-- Any nibble tuple outside the recognised patterns falls through the
whole dispatch chain to the `unimplemented` arm. -/
theorem dispatch_unimplemented (e : Emulator) (op rng hex_1 hex_2 hex_3 hex_4 : Nat)
    (h : definedNibbles hex_1 hex_2 hex_3 hex_4 = false) :
    e.dispatch op rng hex_1 hex_2 hex_3 hex_4 = .error (.unimplemented op) := by
  simp only [definedNibbles] at h
  simp only [Emulator.dispatch]
  by_cases h1 : hex_1 = 0 ∧ hex_2 = 0 ∧ hex_3 = 0 ∧ hex_4 = 0
  · rw [if_pos h1] at h; exact absurd h (by simp)
  rw [if_neg h1] at h ⊢
  by_cases h2 : hex_1 = 0 ∧ hex_2 = 0 ∧ hex_3 = 0xE ∧ hex_4 = 0
  · rw [if_pos h2] at h; exact absurd h (by simp)
  rw [if_neg h2] at h ⊢
  by_cases h3 : hex_1 = 0 ∧ hex_2 = 0 ∧ hex_3 = 0xE ∧ hex_4 = 0xE
  · rw [if_pos h3] at h; exact absurd h (by simp)
  rw [if_neg h3] at h ⊢
  by_cases h4 : hex_1 = 1
  · rw [if_pos h4] at h; exact absurd h (by simp)
  rw [if_neg h4] at h ⊢
  by_cases h5 : hex_1 = 2
  · rw [if_pos h5] at h; exact absurd h (by simp)
  rw [if_neg h5] at h ⊢
  by_cases h6 : hex_1 = 3
  · rw [if_pos h6] at h; exact absurd h (by simp)
  rw [if_neg h6] at h ⊢
  by_cases h7 : hex_1 = 4
  · rw [if_pos h7] at h; exact absurd h (by simp)
  rw [if_neg h7] at h ⊢
  by_cases h8 : hex_1 = 5 ∧ hex_4 = 0
  · rw [if_pos h8] at h; exact absurd h (by simp)
  rw [if_neg h8] at h ⊢
  by_cases h9 : hex_1 = 6
  · rw [if_pos h9] at h; exact absurd h (by simp)
  rw [if_neg h9] at h ⊢
  by_cases h10 : hex_1 = 7
  · rw [if_pos h10] at h; exact absurd h (by simp)
  rw [if_neg h10] at h ⊢
  by_cases h11 : hex_1 = 8 ∧ hex_4 = 0
  · rw [if_pos h11] at h; exact absurd h (by simp)
  rw [if_neg h11] at h ⊢
  by_cases h12 : hex_1 = 8 ∧ hex_4 = 1
  · rw [if_pos h12] at h; exact absurd h (by simp)
  rw [if_neg h12] at h ⊢
  by_cases h13 : hex_1 = 8 ∧ hex_4 = 2
  · rw [if_pos h13] at h; exact absurd h (by simp)
  rw [if_neg h13] at h ⊢
  by_cases h14 : hex_1 = 8 ∧ hex_4 = 3
  · rw [if_pos h14] at h; exact absurd h (by simp)
  rw [if_neg h14] at h ⊢
  by_cases h15 : hex_1 = 8 ∧ hex_4 = 4
  · rw [if_pos h15] at h; exact absurd h (by simp)
  rw [if_neg h15] at h ⊢
  by_cases h16 : hex_1 = 8 ∧ hex_4 = 5
  · rw [if_pos h16] at h; exact absurd h (by simp)
  rw [if_neg h16] at h ⊢
  by_cases h17 : hex_1 = 8 ∧ hex_4 = 6
  · rw [if_pos h17] at h; exact absurd h (by simp)
  rw [if_neg h17] at h ⊢
  by_cases h18 : hex_1 = 8 ∧ hex_4 = 7
  · rw [if_pos h18] at h; exact absurd h (by simp)
  rw [if_neg h18] at h ⊢
  by_cases h19 : hex_1 = 8 ∧ hex_4 = 0xE
  · rw [if_pos h19] at h; exact absurd h (by simp)
  rw [if_neg h19] at h ⊢
  by_cases h20 : hex_1 = 9 ∧ hex_4 = 0
  · rw [if_pos h20] at h; exact absurd h (by simp)
  rw [if_neg h20] at h ⊢
  by_cases h21 : hex_1 = 0xA
  · rw [if_pos h21] at h; exact absurd h (by simp)
  rw [if_neg h21] at h ⊢
  by_cases h22 : hex_1 = 0xB
  · rw [if_pos h22] at h; exact absurd h (by simp)
  rw [if_neg h22] at h ⊢
  by_cases h23 : hex_1 = 0xC
  · rw [if_pos h23] at h; exact absurd h (by simp)
  rw [if_neg h23] at h ⊢
  by_cases h24 : hex_1 = 0xD
  · rw [if_pos h24] at h; exact absurd h (by simp)
  rw [if_neg h24] at h ⊢
  by_cases h25 : hex_1 = 0xE ∧ hex_3 = 9 ∧ hex_4 = 0xE
  · rw [if_pos h25] at h; exact absurd h (by simp)
  rw [if_neg h25] at h ⊢
  by_cases h26 : hex_1 = 0xE ∧ hex_3 = 0xA ∧ hex_4 = 1
  · rw [if_pos h26] at h; exact absurd h (by simp)
  rw [if_neg h26] at h ⊢
  by_cases h27 : hex_1 = 0xF ∧ hex_3 = 0 ∧ hex_4 = 7
  · rw [if_pos h27] at h; exact absurd h (by simp)
  rw [if_neg h27] at h ⊢
  by_cases h28 : hex_1 = 0xF ∧ hex_3 = 0 ∧ hex_4 = 0xA
  · rw [if_pos h28] at h; exact absurd h (by simp)
  rw [if_neg h28] at h ⊢
  by_cases h29 : hex_1 = 0xF ∧ hex_3 = 1 ∧ hex_4 = 5
  · rw [if_pos h29] at h; exact absurd h (by simp)
  rw [if_neg h29] at h ⊢
  by_cases h30 : hex_1 = 0xF ∧ hex_3 = 1 ∧ hex_4 = 8
  · rw [if_pos h30] at h; exact absurd h (by simp)
  rw [if_neg h30] at h ⊢
  by_cases h31 : hex_1 = 0xF ∧ hex_3 = 1 ∧ hex_4 = 0xE
  · rw [if_pos h31] at h; exact absurd h (by simp)
  rw [if_neg h31] at h ⊢
  by_cases h32 : hex_1 = 0xF ∧ hex_3 = 2 ∧ hex_4 = 9
  · rw [if_pos h32] at h; exact absurd h (by simp)
  rw [if_neg h32] at h ⊢
  by_cases h33 : hex_1 = 0xF ∧ hex_3 = 3 ∧ hex_4 = 3
  · rw [if_pos h33] at h; exact absurd h (by simp)
  rw [if_neg h33] at h ⊢
  by_cases h34 : hex_1 = 0xF ∧ hex_3 = 5 ∧ hex_4 = 5
  · rw [if_pos h34] at h; exact absurd h (by simp)
  rw [if_neg h34] at h ⊢
  by_cases h35 : hex_1 = 0xF ∧ hex_3 = 6 ∧ hex_4 = 5
  · rw [if_pos h35] at h; exact absurd h (by simp)
  rw [if_neg h35] at h ⊢

/-- C7: any instruction word whose nibble pattern matches none of the
defined opcode forms makes `decode_and_execute` fail with the
distinguishable unimplemented-instruction error carrying the raw word,
and no state transition is applied. -/
theorem C7_unimplemented (e : Emulator) (op rng : Nat) (h : definedOpcode op = false) :
    e.decode_and_execute op rng = .error (.unimplemented op) := by
  simp only [definedOpcode] at h
  simp only [Emulator.decode_and_execute]
  exact dispatch_unimplemented e op rng _ _ _ _ h

/-- Witness for C7 at the concrete undefined word `0x5001`. -/
theorem C7_unimplemented_witness :
    definedOpcode 0x5001 = false ∧
    Emulator.new.decode_and_execute 0x5001 0 = .error (.unimplemented 0x5001) :=
  ⟨by decide, C7_unimplemented Emulator.new 0x5001 0 (by decide)⟩

/-- C6: executing `8,X,Y,5` (with X not the flag register itself) sets
register X to `VX - VY` wrapping modulo 256 and sets register 15 to 1
exactly when no borrow occurred (`VY ≤ VX`), 0 otherwise. -/
theorem C6_sub_borrow (e : Emulator) (rng x y : Nat) (hx : x < 16) (hy : y < 16)
    (hxF : x ≠ 15) (hvx : e.v_reg x < 256) (hvy : e.v_reg y < 256) :
    (e.decode_and_execute (0x8005 + 256 * x + 16 * y) rng).map
        (fun e2 => (e2.v_reg x, e2.v_reg 15)) =
      .ok ((e.v_reg x + 256 - e.v_reg y) % 256, if e.v_reg y ≤ e.v_reg x then 1 else 0) := by
  rw [decode_eq_dispatch]
  have n1 : (0x8005 + 256 * x + 16 * y) / 4096 % 16 = 8 := by omega
  have n2 : (0x8005 + 256 * x + 16 * y) / 256 % 16 = x := by omega
  have n3 : (0x8005 + 256 * x + 16 * y) / 16 % 16 = y := by omega
  have n4 : (0x8005 + 256 * x + 16 * y) % 16 = 5 := by omega
  rw [n1, n2, n3, n4]
  simp only [Emulator.dispatch]
  norm_num
  simp only [Except.map, updN, Except.ok.injEq, Prod.mk.injEq]
  constructor
  · split_ifs <;> omega
  · split_ifs <;> omega

/-- Witness for C6 at the claim's two examples: `V0 = 1, V1 = 2` gives
`V0 = 0xFF`, flag 0; `V0 = 2, V1 = 1` gives `V0 = 1`, flag 1
(opcode `0x8015`, so X = 0, Y = 1). -/
theorem C6_sub_borrow_witness :
    ((0 : Nat) < 16 ∧ (1 : Nat) < 16 ∧ (0 : Nat) ≠ 15 ∧
      eC6a.v_reg 0 < 256 ∧ eC6a.v_reg 1 < 256 ∧ eC6b.v_reg 0 < 256 ∧ eC6b.v_reg 1 < 256) ∧
    (eC6a.decode_and_execute (0x8005 + 256 * 0 + 16 * 1) 0).map
        (fun e2 => (e2.v_reg 0, e2.v_reg 15)) =
      .ok ((eC6a.v_reg 0 + 256 - eC6a.v_reg 1) % 256,
        if eC6a.v_reg 1 ≤ eC6a.v_reg 0 then 1 else 0) ∧
    (eC6b.decode_and_execute (0x8005 + 256 * 0 + 16 * 1) 0).map
        (fun e2 => (e2.v_reg 0, e2.v_reg 15)) =
      .ok ((eC6b.v_reg 0 + 256 - eC6b.v_reg 1) % 256,
        if eC6b.v_reg 1 ≤ eC6b.v_reg 0 then 1 else 0) :=
  ⟨⟨by decide, by decide, by decide, by decide, by decide, by decide, by decide⟩,
   C6_sub_borrow eC6a 0 0 1 (by decide) (by decide) (by decide) (by decide) (by decide),
   C6_sub_borrow eC6b 0 0 1 (by decide) (by decide) (by decide) (by decide) (by decide)⟩

/-- C4: a step whose fetched instruction is `F,X,0,A` retries when no
key is pressed -- the state (program counter, every register, and all
other components) is exactly unchanged -- and when at least one keypad
flag is set it stores the lowest pressed key index into register X and
leaves the program counter advanced by 2. -/
theorem C4_key_wait (e : Emulator) (rng x : Nat) (hx : x < 16)
    (hpc : e.pc + 1 < RAM_SIZE) (hhi : e.ram e.pc = 0xF0 + x) (hlo : e.ram (e.pc + 1) = 0x0A) :
    ((∀ i, i < NUM_KEYS → e.keys i = false) → e.tick rng = .ok e) ∧
    (∀ k, k < NUM_KEYS → e.keys k = true → (∀ j, j < k → e.keys j = false) →
      ∃ e2, e.tick rng = .ok e2 ∧ e2.pc = e.pc + 2 ∧ e2.v_reg x = k ∧
        (∀ m, m ≠ x → e2.v_reg m = e.v_reg m) ∧ e2.ram = e.ram ∧ e2.screen = e.screen ∧
        e2.i_reg = e.i_reg ∧ e2.sp = e.sp ∧ e2.stack = e.stack ∧ e2.keys = e.keys ∧
        e2.delay_t = e.delay_t ∧ e2.sound_t = e.sound_t) := by
  have hfetch : e.fetch = .ok ((0xF0 + x) * 256 + 0x0A, { e with pc := e.pc + 2 }) := by
    simp only [Emulator.fetch, if_pos hpc]
    rw [hhi, hlo, shiftLeft_or_eq_add _ _ (by norm_num)]
  have htick : e.tick rng =
      ({ e with pc := e.pc + 2 } : Emulator).decode_and_execute ((0xF0 + x) * 256 + 0x0A) rng := by
    simp only [Emulator.tick, hfetch]
  have n1 : ((0xF0 + x) * 256 + 0x0A) / 4096 % 16 = 15 := by omega
  have n2 : ((0xF0 + x) * 256 + 0x0A) / 256 % 16 = x := by omega
  have n3 : ((0xF0 + x) * 256 + 0x0A) / 16 % 16 = 0 := by omega
  have n4 : ((0xF0 + x) * 256 + 0x0A) % 16 = 10 := by omega
  rw [htick, decode_eq_dispatch, n1, n2, n3, n4]
  simp only [Emulator.dispatch]
  norm_num
  constructor
  · intro hnone
    rw [find_range_none e.keys NUM_KEYS hnone]
  · intro k hk hkt hmin
    refine ⟨{ e with pc := e.pc + 2, v_reg := updN e.v_reg x k }, ?_, rfl, ?_, ?_,
      rfl, rfl, rfl, rfl, rfl, rfl, rfl, rfl⟩
    · rw [find_range_some e.keys NUM_KEYS k hk hkt hmin]
    · simp [updN]
    · intro m hm
      simp [updN, hm]

/-- Witness for C4: `eK` (instruction `F,5,0,A` at the program counter,
no key pressed) steps to itself; `eK2` (key 3 pressed) completes the
instruction, storing 3 in register 5 and advancing the counter. -/
theorem C4_key_wait_witness :
    ((5 : Nat) < 16 ∧ eK.pc + 1 < RAM_SIZE ∧ eK.ram eK.pc = 0xF0 + 5 ∧
      eK.ram (eK.pc + 1) = 0x0A ∧ (∀ i, i < NUM_KEYS → eK.keys i = false)) ∧
    eK.tick 0 = .ok eK ∧
    ((3 : Nat) < NUM_KEYS ∧ eK2.keys 3 = true ∧ (∀ j, j < 3 → eK2.keys j = false)) ∧
    (∃ e2, eK2.tick 0 = .ok e2 ∧ e2.pc = eK2.pc + 2 ∧ e2.v_reg 5 = 3 ∧
      (∀ m, m ≠ 5 → e2.v_reg m = eK2.v_reg m) ∧ e2.ram = eK2.ram ∧ e2.screen = eK2.screen ∧
      e2.i_reg = eK2.i_reg ∧ e2.sp = eK2.sp ∧ e2.stack = eK2.stack ∧ e2.keys = eK2.keys ∧
      e2.delay_t = eK2.delay_t ∧ e2.sound_t = eK2.sound_t) :=
  ⟨⟨by decide, by decide, by decide, by decide, by decide⟩,
   (C4_key_wait eK 0 5 (by decide) (by decide) (by decide) (by decide)).1 (by decide),
   ⟨by decide, by decide, by decide⟩,
   (C4_key_wait eK2 0 5 (by decide) (by decide) (by decide) (by decide)).2 3 (by decide)
     (by decide) (by decide)⟩

/-- A successful `push` leaves ram and the index register unchanged. -/
theorem push_ok_ram (e : Emulator) (v : Nat) (e1 : Emulator) (h : e.push v = .ok e1) :
    e1.ram = e.ram ∧ e1.i_reg = e.i_reg := by
  simp only [Emulator.push] at h
  by_cases h0 : e.sp < STACK_SIZE
  · rw [if_pos h0] at h
    injection h with h
    subst h
    exact ⟨rfl, rfl⟩
  · rw [if_neg h0] at h
    simp at h

/-- A successful `pop` leaves ram and the index register unchanged. -/
theorem pop_ok_ram (e : Emulator) (r : Nat) (e1 : Emulator) (h : e.pop = .ok (r, e1)) :
    e1.ram = e.ram ∧ e1.i_reg = e.i_reg := by
  simp only [Emulator.pop] at h
  by_cases h0 : e.sp = 0
  · rw [if_pos h0] at h
    simp at h
  · rw [if_neg h0] at h
    by_cases h1 : e.sp - 1 < STACK_SIZE
    · rw [if_pos h1] at h
      injection h with h
      obtain ⟨ha, hb⟩ := (Prod.mk.injEq _ _ _ _).mp h
      subst hb
      exact ⟨rfl, rfl⟩
    · rw [if_neg h1] at h
      simp at h

/-- A successful `fetch` leaves ram and the index register unchanged. -/
theorem fetch_ok_ram (e : Emulator) (op : Nat) (e1 : Emulator) (h : e.fetch = .ok (op, e1)) :
    e1.ram = e.ram ∧ e1.i_reg = e.i_reg := by
  simp only [Emulator.fetch] at h
  by_cases h0 : e.pc + 1 < RAM_SIZE
  · rw [if_pos h0] at h
    injection h with h
    obtain ⟨ha, hb⟩ := (Prod.mk.injEq _ _ _ _).mp h
    subst hb
    exact ⟨rfl, rfl⟩
  · rw [if_neg h0] at h
    simp at h

/-- The `F,X,5,5` store loop never writes below the index register. -/
theorem storeFold_lt (v : Nat → Nat) (i : Nat) (l : List Nat) (ram : Nat → Nat) (a : Nat)
    (ha : a < i) : (l.foldl (fun r idx => updN r (i + idx) (v idx)) ram) a = ram a := by
  induction l generalizing ram with
  | nil => rfl
  | cons c cs ih =>
    rw [List.foldl_cons, ih (updN ram (i + c) (v c))]
    simp only [updN]
    rw [if_neg (by omega)]

/-- No successful dispatch with the index register at or above `0x50`
writes to addresses below `0x50`: the only ram-writing arms are
`F,X,3,3` and `F,X,5,5`, and both write at `i_reg` and above. -/
theorem dispatch_ram_preserved (e : Emulator) (op rng hex_1 hex_2 hex_3 hex_4 : Nat)
    (e2 : Emulator) (hi : 0x50 ≤ e.i_reg) (h : e.dispatch op rng hex_1 hex_2 hex_3 hex_4 = .ok e2)
    (a : Nat) (ha : a < 0x50) : e2.ram a = e.ram a := by
  simp only [Emulator.dispatch] at h
  by_cases h1 : hex_1 = 0 ∧ hex_2 = 0 ∧ hex_3 = 0 ∧ hex_4 = 0
  · rw [if_pos h1] at h
    injection h with h
    subst h
    rfl
  rw [if_neg h1] at h
  by_cases h2 : hex_1 = 0 ∧ hex_2 = 0 ∧ hex_3 = 0xE ∧ hex_4 = 0
  · rw [if_pos h2] at h
    injection h with h
    subst h
    rfl
  rw [if_neg h2] at h
  by_cases h3 : hex_1 = 0 ∧ hex_2 = 0 ∧ hex_3 = 0xE ∧ hex_4 = 0xE
  · rw [if_pos h3] at h
    cases hp : e.pop with
    | ok pr =>
      obtain ⟨r, e1⟩ := pr
      simp only [hp] at h
      injection h with h
      subst h
      exact congrFun (pop_ok_ram e r e1 hp).1 a
    | error er => simp [hp] at h
  rw [if_neg h3] at h
  by_cases h4 : hex_1 = 1
  · rw [if_pos h4] at h
    injection h with h
    subst h
    rfl
  rw [if_neg h4] at h
  by_cases h5 : hex_1 = 2
  · rw [if_pos h5] at h
    cases hq : e.push e.pc with
    | ok e1 =>
      simp only [hq] at h
      injection h with h
      subst h
      exact congrFun (push_ok_ram e e.pc e1 hq).1 a
    | error er => simp [hq] at h
  rw [if_neg h5] at h
  by_cases h6 : hex_1 = 3
  · rw [if_pos h6] at h
    injection h with h
    subst h
    split <;> rfl
  rw [if_neg h6] at h
  by_cases h7 : hex_1 = 4
  · rw [if_pos h7] at h
    injection h with h
    subst h
    split <;> rfl
  rw [if_neg h7] at h
  by_cases h8 : hex_1 = 5 ∧ hex_4 = 0
  · rw [if_pos h8] at h
    injection h with h
    subst h
    split <;> rfl
  rw [if_neg h8] at h
  by_cases h9 : hex_1 = 6
  · rw [if_pos h9] at h
    injection h with h
    subst h
    rfl
  rw [if_neg h9] at h
  by_cases h10 : hex_1 = 7
  · rw [if_pos h10] at h
    injection h with h
    subst h
    rfl
  rw [if_neg h10] at h
  by_cases h11 : hex_1 = 8 ∧ hex_4 = 0
  · rw [if_pos h11] at h
    injection h with h
    subst h
    rfl
  rw [if_neg h11] at h
  by_cases h12 : hex_1 = 8 ∧ hex_4 = 1
  · rw [if_pos h12] at h
    injection h with h
    subst h
    rfl
  rw [if_neg h12] at h
  by_cases h13 : hex_1 = 8 ∧ hex_4 = 2
  · rw [if_pos h13] at h
    injection h with h
    subst h
    rfl
  rw [if_neg h13] at h
  by_cases h14 : hex_1 = 8 ∧ hex_4 = 3
  · rw [if_pos h14] at h
    injection h with h
    subst h
    rfl
  rw [if_neg h14] at h
  by_cases h15 : hex_1 = 8 ∧ hex_4 = 4
  · rw [if_pos h15] at h
    injection h with h
    subst h
    rfl
  rw [if_neg h15] at h
  by_cases h16 : hex_1 = 8 ∧ hex_4 = 5
  · rw [if_pos h16] at h
    injection h with h
    subst h
    rfl
  rw [if_neg h16] at h
  by_cases h17 : hex_1 = 8 ∧ hex_4 = 6
  · rw [if_pos h17] at h
    injection h with h
    subst h
    rfl
  rw [if_neg h17] at h
  by_cases h18 : hex_1 = 8 ∧ hex_4 = 7
  · rw [if_pos h18] at h
    injection h with h
    subst h
    rfl
  rw [if_neg h18] at h
  by_cases h19 : hex_1 = 8 ∧ hex_4 = 0xE
  · rw [if_pos h19] at h
    injection h with h
    subst h
    rfl
  rw [if_neg h19] at h
  by_cases h20 : hex_1 = 9 ∧ hex_4 = 0
  · rw [if_pos h20] at h
    injection h with h
    subst h
    split <;> rfl
  rw [if_neg h20] at h
  by_cases h21 : hex_1 = 0xA
  · rw [if_pos h21] at h
    injection h with h
    subst h
    rfl
  rw [if_neg h21] at h
  by_cases h22 : hex_1 = 0xB
  · rw [if_pos h22] at h
    injection h with h
    subst h
    rfl
  rw [if_neg h22] at h
  by_cases h23 : hex_1 = 0xC
  · rw [if_pos h23] at h
    injection h with h
    subst h
    rfl
  rw [if_neg h23] at h
  by_cases h24 : hex_1 = 0xD
  · rw [if_pos h24] at h
    cases hd : drawRows e (e.v_reg hex_2) (e.v_reg hex_3) (List.range hex_4) (e.screen, false) with
    | ok sf =>
      simp only [hd] at h
      injection h with h
      subst h
      rfl
    | error er => simp [hd] at h
  rw [if_neg h24] at h
  by_cases h25 : hex_1 = 0xE ∧ hex_3 = 9 ∧ hex_4 = 0xE
  · rw [if_pos h25] at h
    split at h
    · injection h with h
      subst h
      split <;> rfl
    · simp at h
  rw [if_neg h25] at h
  by_cases h26 : hex_1 = 0xE ∧ hex_3 = 0xA ∧ hex_4 = 1
  · rw [if_pos h26] at h
    split at h
    · injection h with h
      subst h
      split <;> rfl
    · simp at h
  rw [if_neg h26] at h
  by_cases h27 : hex_1 = 0xF ∧ hex_3 = 0 ∧ hex_4 = 7
  · rw [if_pos h27] at h
    injection h with h
    subst h
    rfl
  rw [if_neg h27] at h
  by_cases h28 : hex_1 = 0xF ∧ hex_3 = 0 ∧ hex_4 = 0xA
  · rw [if_pos h28] at h
    cases hf : List.find? e.keys (List.range NUM_KEYS) with
    | some i =>
      simp only [hf] at h
      injection h with h
      subst h
      rfl
    | none =>
      simp only [hf] at h
      split at h
      · simp at h
      · injection h with h
        subst h
        rfl
  rw [if_neg h28] at h
  by_cases h29 : hex_1 = 0xF ∧ hex_3 = 1 ∧ hex_4 = 5
  · rw [if_pos h29] at h
    injection h with h
    subst h
    rfl
  rw [if_neg h29] at h
  by_cases h30 : hex_1 = 0xF ∧ hex_3 = 1 ∧ hex_4 = 8
  · rw [if_pos h30] at h
    injection h with h
    subst h
    rfl
  rw [if_neg h30] at h
  by_cases h31 : hex_1 = 0xF ∧ hex_3 = 1 ∧ hex_4 = 0xE
  · rw [if_pos h31] at h
    injection h with h
    subst h
    rfl
  rw [if_neg h31] at h
  by_cases h32 : hex_1 = 0xF ∧ hex_3 = 2 ∧ hex_4 = 9
  · rw [if_pos h32] at h
    injection h with h
    subst h
    rfl
  rw [if_neg h32] at h
  by_cases h33 : hex_1 = 0xF ∧ hex_3 = 3 ∧ hex_4 = 3
  · rw [if_pos h33] at h
    split at h
    · injection h with h
      subst h
      simp only [updN]
      rw [if_neg (by omega), if_neg (by omega), if_neg (by omega)]
    · simp at h
  rw [if_neg h33] at h
  by_cases h34 : hex_1 = 0xF ∧ hex_3 = 5 ∧ hex_4 = 5
  · rw [if_pos h34] at h
    split at h
    · injection h with h
      subst h
      exact storeFold_lt e.v_reg e.i_reg (List.range (hex_2 + 1)) e.ram a (by omega)
    · simp at h
  rw [if_neg h34] at h
  by_cases h35 : hex_1 = 0xF ∧ hex_3 = 6 ∧ hex_4 = 5
  · rw [if_pos h35] at h
    split at h
    · injection h with h
      subst h
      rfl
    · simp at h
  rw [if_neg h35] at h
  simp at h

/-- `dispatch_ram_preserved` at the level of `decode_and_execute`. -/
theorem decode_ram_preserved (e : Emulator) (op rng : Nat) (e2 : Emulator)
    (hi : 0x50 ≤ e.i_reg) (h : e.decode_and_execute op rng = .ok e2) (a : Nat) (ha : a < 0x50) :
    e2.ram a = e.ram a := by
  rw [decode_eq_dispatch] at h
  exact dispatch_ram_preserved e op rng _ _ _ _ e2 hi h a ha

/-- `dispatch_ram_preserved` at the level of a full `tick`. -/
theorem tick_ram_preserved (e : Emulator) (rng : Nat) (e2 : Emulator) (hi : 0x50 ≤ e.i_reg)
    (h : e.tick rng = .ok e2) (a : Nat) (ha : a < 0x50) : e2.ram a = e.ram a := by
  simp only [Emulator.tick] at h
  cases hf : e.fetch with
  | ok pr =>
    obtain ⟨op, e1⟩ := pr
    simp only [hf] at h
    have hfr := fetch_ok_ram e op e1 hf
    have hstep := decode_ram_preserved e1 op rng e2 (by rw [hfr.2]; exact hi) h a ha
    rw [hstep, congrFun hfr.1 a]
  | error er => simp [hf] at h

/-- C5 (counterexample): the glyph table is not write-protected.  From
a freshly constructed emulator, loading the program `A000 F033` and
running two successful steps overwrites memory address 0 (which held
the glyph byte `0xF0`) with the BCD hundreds digit 0 of `V0 = 0`. -/
theorem C5_glyph_counterexample :
    Emulator.new.ram 0 = 0xF0 ∧ FONTSET.getD 0 0 = 0xF0 ∧
    c5Run.map (fun e2 => e2.ram 0) = .ok 0 :=
  ⟨rfl, rfl, rfl⟩

/-- C5 (amended): memory `0x000`-`0x04F` holds the fixed glyph table
after initialization and after reset, and a successful step leaves
those bytes unchanged whenever the index register is at least `0x50` --
the only instructions that write memory at all (`F,X,3,3` and
`F,X,5,5`) write at the index register and above, so only they, with
the index register pointing below `0x50`, can mutate the table. -/
theorem C5_glyph_amended :
    (∀ a : Nat, a < FONTSET_SIZE → Emulator.new.ram a = FONTSET.getD a 0) ∧
    (∀ e : Emulator, ∀ a : Nat, a < FONTSET_SIZE → e.reset.ram a = FONTSET.getD a 0) ∧
    (∀ e e2 : Emulator, ∀ rng a : Nat, 0x50 ≤ e.i_reg → e.tick rng = .ok e2 → a < 0x50 →
      e2.ram a = e.ram a) := by
  refine ⟨fun a ha => ?_, fun e a ha => ?_, fun e e2 rng a hi h ha =>
    tick_ram_preserved e rng e2 hi h a ha⟩
  · simp [Emulator.new, writeFontset, ha]
  · simp [Emulator.reset, writeFontset, ha]

/-- Witness for C5 (amended) at address 0 and the concrete step
`eW.tick 0 = .ok eW2` taken with the index register at `0x50`. -/
theorem C5_glyph_amended_witness :
    ((0 : Nat) < FONTSET_SIZE ∧ 0x50 ≤ eW.i_reg ∧ eW.tick 0 = .ok eW2 ∧ (0 : Nat) < 0x50) ∧
    Emulator.new.ram 0 = FONTSET.getD 0 0 ∧ eW2.ram 0 = eW.ram 0 :=
  ⟨⟨by decide, by decide, by rfl, by decide⟩,
   C5_glyph_amended.1 0 (by decide),
   C5_glyph_amended.2.2 eW eW2 0 0 (by decide) (by rfl) (by decide)⟩

theorem toggleFold_append (l1 l2 : List Nat) (sf : (Nat → Bool) × Bool) :
    toggleFold (l1 ++ l2) sf = toggleFold l2 (toggleFold l1 sf) := by
  induction l1 generalizing sf with
  | nil => rfl
  | cons i rest ih =>
    simp only [List.cons_append, toggleFold]
    exact ih _

theorem toggleFold_fst (l : List Nat) (hl : l.Nodup) (s : Nat → Bool) (f : Bool) (j : Nat) :
    (toggleFold l (s, f)).1 j = if j ∈ l then !s j else s j := by
  induction l generalizing s f with
  | nil => simp [toggleFold]
  | cons i rest ih =>
    have hni : i ∉ rest := (List.nodup_cons.mp hl).1
    have hrest : rest.Nodup := (List.nodup_cons.mp hl).2
    simp only [toggleFold, ih hrest]
    by_cases hjr : j ∈ rest
    · have hji : j ≠ i := fun hji => hni (hji ▸ hjr)
      rw [if_pos hjr, if_pos (List.mem_cons.mpr (Or.inr hjr))]
      simp [updB, hji]
    · by_cases hji : j = i
      · subst hji
        rw [if_neg hjr, if_pos (List.mem_cons.mpr (Or.inl rfl))]
        simp [updB]
      · rw [if_neg hjr, if_neg (by simp [List.mem_cons, hji, hjr])]
        simp [updB, hji]

theorem any_congr_on (l : List Nat) (p q : Nat → Bool) (h : ∀ a ∈ l, p a = q a) :
    l.any p = l.any q := by
  induction l with
  | nil => rfl
  | cons a as ih =>
    simp only [List.any_cons, h a (List.mem_cons_self a as),
      ih fun b hb => h b (List.mem_cons_of_mem a hb)]

theorem toggleFold_snd (l : List Nat) (hl : l.Nodup) (s : Nat → Bool) (f : Bool) :
    (toggleFold l (s, f)).2 = (f || l.any fun i => s i) := by
  induction l generalizing s f with
  | nil => simp [toggleFold]
  | cons i rest ih =>
    have hni : i ∉ rest := (List.nodup_cons.mp hl).1
    have hrest : rest.Nodup := (List.nodup_cons.mp hl).2
    simp only [toggleFold, ih hrest]
    have hany : (rest.any fun k => updB s i (!s i) k) = rest.any fun k => s k := by
      apply any_congr_on
      intro k hk
      have hki : k ≠ i := fun hki => hni (hki ▸ hk)
      simp [updB, hki]
    rw [hany]
    simp [List.any_cons]
    cases s i <;> cases f <;> simp

theorem cols_foldl_eq (xC yC yLine pixels : Nat) (cols : List Nat) (sf : (Nat → Bool) × Bool) :
    cols.foldl (drawPixel xC yC yLine pixels) sf =
      toggleFold ((cols.filter fun c => spriteBit pixels c).map (pos xC yC yLine)) sf := by
  induction cols generalizing sf with
  | nil => rfl
  | cons c cs ih =>
    rw [List.foldl_cons, ih]
    by_cases hb : spriteBit pixels c
    · rw [List.filter_cons_of_pos hb, List.map_cons]
      simp only [toggleFold, drawPixel, hb, if_pos, pos]
    · rw [List.filter_cons_of_neg (by simp [hb])]
      simp only [drawPixel, hb, if_neg, Bool.false_eq_true, ite_false]

theorem drawRows_ok (e : Emulator) (xC yC : Nat) (rows : List Nat)
    (h : ∀ r ∈ rows, e.i_reg + r < RAM_SIZE) (sf : (Nat → Bool) × Bool) :
    drawRows e xC yC rows sf = .ok (rows.foldl
      (fun sf r => (List.range 8).foldl (drawPixel xC yC r (e.ram (e.i_reg + r))) sf) sf) := by
  induction rows generalizing sf with
  | nil => rfl
  | cons r rest ih =>
    simp only [drawRows, List.foldl_cons]
    rw [if_pos (h r (List.mem_cons_self r rest))]
    exact ih (fun r2 hr2 => h r2 (List.mem_cons_of_mem r hr2)) _

theorem rows_fold_toggle (e : Emulator) (xC yC n : Nat) (sf : (Nat → Bool) × Bool) :
    (List.range n).foldl
      (fun sf r => (List.range 8).foldl (drawPixel xC yC r (e.ram (e.i_reg + r))) sf) sf =
      toggleFold (allIdxs e xC yC n) sf := by
  induction n generalizing sf with
  | zero => rfl
  | succ n ih =>
    rw [List.range_succ n, List.foldl_append, ih, allIdxs, toggleFold_append]
    simp only [List.foldl_cons, List.foldl_nil]
    rw [cols_foldl_eq]
    rfl

theorem pos_inj (xC yC r c r2 c2 : Nat) (hr : r < 32) (hr2 : r2 < 32) (hc : c < 8)
    (hc2 : c2 < 8) (h : pos xC yC r c = pos xC yC r2 c2) : r = r2 ∧ c = c2 := by
  simp only [pos, SCREEN_WIDTH, SCREEN_HEIGHT] at h
  omega

theorem mem_rowIdxs (e : Emulator) (xC yC r j : Nat) :
    j ∈ rowIdxs e xC yC r ↔
      ∃ c, c < 8 ∧ spriteBit (e.ram (e.i_reg + r)) c = true ∧ j = pos xC yC r c := by
  simp only [rowIdxs, List.mem_map, List.mem_filter, List.mem_range]
  constructor
  · rintro ⟨c, ⟨hc8, hbit⟩, hpos⟩
    exact ⟨c, hc8, hbit, hpos.symm⟩
  · rintro ⟨c, hc8, hbit, hpos⟩
    exact ⟨c, ⟨hc8, hbit⟩, hpos.symm⟩

theorem mem_allIdxs (e : Emulator) (xC yC n j : Nat) :
    j ∈ allIdxs e xC yC n ↔
      ∃ r, r < n ∧ ∃ c, c < 8 ∧ spriteBit (e.ram (e.i_reg + r)) c = true ∧
        j = pos xC yC r c := by
  induction n with
  | zero => simp [allIdxs]
  | succ n ih =>
    simp only [allIdxs, List.mem_append, ih, mem_rowIdxs]
    constructor
    · rintro (⟨r, hr, hrest⟩ | hrow)
      · exact ⟨r, by omega, hrest⟩
      · exact ⟨n, by omega, hrow⟩
    · rintro ⟨r, hr, c, hc, hbit, hj⟩
      rcases (by omega : r < n ∨ r = n) with h | h
      · exact Or.inl ⟨r, h, c, hc, hbit, hj⟩
      · subst h
        exact Or.inr ⟨c, hc, hbit, hj⟩

theorem nodup_rowIdxs (e : Emulator) (xC yC r : Nat) (hr : r < 32) :
    (rowIdxs e xC yC r).Nodup := by
  apply List.Nodup.map_on
  · intro c hc c2 hc2 hpos
    have hc8 : c < 8 := List.mem_range.mp (List.mem_filter.mp hc).1
    have hc28 : c2 < 8 := List.mem_range.mp (List.mem_filter.mp hc2).1
    exact (pos_inj xC yC r c r c2 hr hr hc8 hc28 hpos).2
  · exact List.Nodup.filter _ (List.nodup_range 8)

theorem nodup_allIdxs (e : Emulator) (xC yC n : Nat) (hn : n ≤ 32) :
    (allIdxs e xC yC n).Nodup := by
  induction n with
  | zero => exact List.nodup_nil
  | succ n ih =>
    apply List.Nodup.append (ih (by omega)) (nodup_rowIdxs e xC yC n (by omega))
    intro a ha ha2
    obtain ⟨r, hr, c, hc, hbit, hj⟩ := (mem_allIdxs e xC yC n a).mp ha
    obtain ⟨c2, hc2, hbit2, hj2⟩ := (mem_rowIdxs e xC yC n a).mp ha2
    have := pos_inj xC yC r c n c2 (by omega) (by omega) hc hc2 (by rw [← hj, ← hj2])
    omega

theorem coveredB_iff_mem (e : Emulator) (xC yC n j : Nat) :
    coveredB e xC yC n j = true ↔ j ∈ allIdxs e xC yC n := by
  rw [mem_allIdxs]
  simp [coveredB, List.any_eq_true, List.mem_range]

theorem any_allIdxs_eq_collideB (e : Emulator) (xC yC n : Nat) :
    ((allIdxs e xC yC n).any fun i => e.screen i) = collideB e xC yC n := by
  have hiff : ((allIdxs e xC yC n).any fun i => e.screen i) = true ↔
      collideB e xC yC n = true := by
    simp only [List.any_eq_true, collideB, List.mem_range]
    constructor
    · rintro ⟨j, hj, hscr⟩
      obtain ⟨r, hr, c, hc, hbit, hpos⟩ := (mem_allIdxs e xC yC n j).mp hj
      exact ⟨r, hr, c, hc, by rw [← hpos]; simp [hbit, hscr]⟩
    · rintro ⟨r, hr, c, hc, hand⟩
      obtain ⟨hbit, hscr⟩ := Bool.and_eq_true_iff.mp hand
      exact ⟨pos xC yC r c, (mem_allIdxs e xC yC n _).mpr ⟨r, hr, c, hc, hbit, rfl⟩, hscr⟩
  cases hA : (allIdxs e xC yC n).any fun i => e.screen i with
  | true => exact (hiff.mp hA).symm
  | false =>
    cases hB : collideB e xC yC n with
    | false => rfl
    | true => exact absurd (hiff.mpr hB) (by simp [hA])

/-- C3: executing `D,X,Y,N` with `i_reg + N ≤ 4096` succeeds; each
pixel the sprite covers -- row below N and column below 8 with the
sprite bit set (most-significant bit first), at wrapped coordinates
`((VX + col) mod 64, (VY + row) mod 32)` -- is XOR-toggled, every other
pixel is unchanged, and register 15 ends 1 exactly when some covered
pixel was previously on (collision), else 0. -/
theorem C3_draw (e : Emulator) (rng x y n : Nat) (hx : x < 16) (hy : y < 16) (hn : n < 16)
    (hi : e.i_reg + n ≤ RAM_SIZE) :
    ∃ e2, e.decode_and_execute (0xD000 + 256 * x + 16 * y + n) rng = .ok e2 ∧
      (∀ j : Nat, e2.screen j = xor (e.screen j) (coveredB e (e.v_reg x) (e.v_reg y) n j)) ∧
      e2.v_reg 0xF = (if collideB e (e.v_reg x) (e.v_reg y) n then 1 else 0) ∧
      (∀ k : Nat, k ≠ 0xF → e2.v_reg k = e.v_reg k) ∧
      e2.pc = e.pc ∧ e2.ram = e.ram ∧ e2.i_reg = e.i_reg ∧ e2.sp = e.sp ∧
      e2.stack = e.stack ∧ e2.keys = e.keys ∧ e2.delay_t = e.delay_t ∧ e2.sound_t = e.sound_t := by
  rw [decode_eq_dispatch]
  have n1 : (0xD000 + 256 * x + 16 * y + n) / 4096 % 16 = 13 := by omega
  have n2 : (0xD000 + 256 * x + 16 * y + n) / 256 % 16 = x := by omega
  have n3 : (0xD000 + 256 * x + 16 * y + n) / 16 % 16 = y := by omega
  have n4 : (0xD000 + 256 * x + 16 * y + n) % 16 = n := by omega
  rw [n1, n2, n3, n4]
  simp only [Emulator.dispatch]
  norm_num
  rw [drawRows_ok e (e.v_reg x) (e.v_reg y) (List.range n)
    (fun r hr => by have := List.mem_range.mp hr; omega) (e.screen, false), rows_fold_toggle]
  have hnd := nodup_allIdxs e (e.v_reg x) (e.v_reg y) n (by omega)
  refine ⟨_, rfl, ?_, ?_, ?_, rfl, rfl, rfl, rfl, rfl, rfl, rfl, rfl⟩
  · intro j
    dsimp only
    rw [toggleFold_fst _ hnd e.screen false j]
    by_cases hj : j ∈ allIdxs e (e.v_reg x) (e.v_reg y) n
    · rw [if_pos hj, (coveredB_iff_mem e (e.v_reg x) (e.v_reg y) n j).mpr hj, Bool.xor_true]
    · rw [if_neg hj]
      have hcov : coveredB e (e.v_reg x) (e.v_reg y) n j = false := by
        cases hcb : coveredB e (e.v_reg x) (e.v_reg y) n j with
        | false => rfl
        | true => exact absurd ((coveredB_iff_mem e (e.v_reg x) (e.v_reg y) n j).mp hcb) hj
      rw [hcov, Bool.xor_false]
  · dsimp only
    rw [toggleFold_snd _ hnd e.screen false, Bool.false_or, any_allIdxs_eq_collideB]
    simp [updN]
  · intro k hk
    dsimp only
    simp [updN, hk]

/-- Witness for C3: drawing the 1-row sprite `0xF0` (glyph-0 top row,
`I = 0`) at `(V0, V1) = (0, 0)` on a fresh emulator. -/
theorem C3_draw_witness :
    ((0 : Nat) < 16 ∧ (1 : Nat) < 16 ∧ (1 : Nat) < 16 ∧
      Emulator.new.i_reg + 1 ≤ RAM_SIZE) ∧
    (∃ e2, Emulator.new.decode_and_execute (0xD000 + 256 * 0 + 16 * 1 + 1) 0 = .ok e2 ∧
      (∀ j : Nat, e2.screen j = xor (Emulator.new.screen j)
        (coveredB Emulator.new (Emulator.new.v_reg 0) (Emulator.new.v_reg 1) 1 j)) ∧
      e2.v_reg 0xF =
        (if collideB Emulator.new (Emulator.new.v_reg 0) (Emulator.new.v_reg 1) 1 then 1
         else 0) ∧
      (∀ k : Nat, k ≠ 0xF → e2.v_reg k = Emulator.new.v_reg k) ∧
      e2.pc = Emulator.new.pc ∧ e2.ram = Emulator.new.ram ∧
      e2.i_reg = Emulator.new.i_reg ∧ e2.sp = Emulator.new.sp ∧
      e2.stack = Emulator.new.stack ∧ e2.keys = Emulator.new.keys ∧
      e2.delay_t = Emulator.new.delay_t ∧ e2.sound_t = Emulator.new.sound_t) :=
  ⟨⟨by decide, by decide, by decide, by decide⟩,
   C3_draw Emulator.new 0 0 1 1 (by decide) (by decide) (by decide) (by decide)⟩

end Chip8
